import Mathlib

/-!
Verification of the Droptime dispatch client (`dt_api.py`) against its
natural-language specification.

The Python module is shallowly embedded:

* Python dictionaries are association lists `List (String × α)`; assignment
  updates an existing slot in place (all slots with equal key) and otherwise
  inserts at the end, and lookup returns the first matching slot, which
  matches Python dict semantics (keys are unique in every dict the program
  builds).
* JSON/YAML values reaching the reformatter are modelled by `Val`
  (strings, numbers, Python `None`); Python floats are modelled as exact
  rationals `ℚ`.
* The YAML configuration file handled by `ruamel.yaml` is a list of lines:
  key/value entries carrying an opaque formatting payload (quoting, inline
  comments, ...) plus standalone comment lines.  `ruamel`'s round-trip
  contract (assignment to a loaded mapping keeps everything else intact on
  dump) is embedded in `docSet`.
* The network is an oracle `Params → HttpResp`; stateful functions thread
  the file document explicitly and additionally return the number of HTTP
  requests they issued.
-/

namespace DtApi

/-- Decidable equality of `Except` results, for evaluating the model on
concrete inputs. -/
instance {ε α : Type} [DecidableEq ε] [DecidableEq α] :
    DecidableEq (Except ε α) := fun x y =>
  match x, y with
  | .error a, .error b =>
    if h : a = b then .isTrue (by rw [h])
    else .isFalse (by intro he; cases he; exact h rfl)
  | .ok a, .ok b =>
    if h : a = b then .isTrue (by rw [h])
    else .isFalse (by intro he; cases he; exact h rfl)
  | .error _, .ok _ => .isFalse (by intro h; cases h)
  | .ok _, .error _ => .isFalse (by intro h; cases h)

/-! ## Association-list dictionaries (Python `dict`) -/

/-- First-match lookup, Python `d.get(k)` / `d[k]` for the dicts built here. -/
def alookup {α : Type} : List (String × α) → String → Option α
  | [], _ => none
  | p :: t, k => if p.1 = k then some p.2 else alookup t k

/-- Python `k in d`. -/
def hasKey {α : Type} : List (String × α) → String → Bool
  | [], _ => false
  | p :: t, k => p.1 = k || hasKey t k

/-- Overwrite every slot whose key is `k` with value `v`. -/
def setAll {α : Type} : List (String × α) → String → α → List (String × α)
  | [], _, _ => []
  | p :: t, k, v => (if p.1 = k then (k, v) else p) :: setAll t k v

/-- Python `d[k] = v`: update the slot in place when the key is present,
otherwise insert at the end (dicts preserve insertion order). -/
def aset {α : Type} (l : List (String × α)) (k : String) (v : α) :
    List (String × α) :=
  if hasKey l k then setAll l k v else l ++ [(k, v)]

theorem alookup_setAll_self {α : Type} (l : List (String × α)) (k : String)
    (v : α) :
    alookup (setAll l k v) k = if hasKey l k then some v else none := by
  induction l with
  | nil => simp [setAll, alookup, hasKey]
  | cons p t ih =>
    by_cases h : p.1 = k
    · simp [setAll, alookup, hasKey, h]
    · simp [setAll, alookup, hasKey, h, ih]

theorem alookup_setAll_ne {α : Type} (l : List (String × α)) {k k' : String}
    (v : α) (h : k' ≠ k) :
    alookup (setAll l k v) k' = alookup l k' := by
  induction l with
  | nil => simp [setAll]
  | cons p t ih =>
    by_cases hp : p.1 = k
    · have : ¬ (k = k') := fun he => h he.symm
      simp [setAll, alookup, hp, this, ih]
    · simp [setAll, alookup, hp, ih]

theorem alookup_append {α : Type} (l m : List (String × α)) (k : String) :
    alookup (l ++ m) k =
      match alookup l k with
      | some v => some v
      | none => alookup m k := by
  induction l with
  | nil => simp [alookup]
  | cons p t ih =>
    by_cases h : p.1 = k
    · simp [alookup, h]
    · simp [alookup, h, ih]

theorem alookup_aset_self {α : Type} (l : List (String × α)) (k : String)
    (v : α) : alookup (aset l k v) k = some v := by
  unfold aset
  by_cases h : hasKey l k
  · simp [h, alookup_setAll_self]
  · have hnone : alookup l k = none := by
      induction l with
      | nil => rfl
      | cons p t ih =>
        simp [hasKey] at h
        simp [alookup, h.1, ih (by simp [h.2])]
    rw [if_neg h, alookup_append, hnone]
    simp [alookup]

theorem alookup_aset_ne {α : Type} (l : List (String × α)) {k k' : String}
    (v : α) (h : k' ≠ k) : alookup (aset l k v) k' = alookup l k' := by
  unfold aset
  by_cases hk : hasKey l k
  · simp [hk, alookup_setAll_ne _ _ h]
  · have : ¬ (k = k') := fun he => h he.symm
    simp [hk, alookup_append, alookup, this]
    cases alookup l k' <;> simp

/-! ## Python string helpers -/

/-- Python whitespace for `str.strip()` (the characters actually occurring in
the data handled here). -/
def isPyWs (c : Char) : Bool :=
  c = ' ' || c = '\t' || c = '\n' || c = '\r' || c = '\x0b' || c = '\x0c'

/-- Strip characters satisfying `p` from both ends of a character list. -/
def stripBoth (p : Char → Bool) (l : List Char) : List Char :=
  ((l.dropWhile p).reverse.dropWhile p).reverse

/-- Python `s.strip()`. -/
def pyStrip (s : String) : String := ⟨stripBoth isPyWs s.data⟩

/-- Python `s.strip("; ").strip()` as applied to line-item `job` values. -/
def jobStrip (s : String) : String :=
  ⟨stripBoth isPyWs (stripBoth (fun c => c = ';' || c = ' ') s.data)⟩

/-- Python `s.split(";")` (single-character separator; keeps empty pieces). -/
def splitSemi : List Char → List (List Char)
  | [] => [[]]
  | c :: rest =>
    let r := splitSemi rest
    if c = ';' then [] :: r
    else
      match r with
      | h :: t => (c :: h) :: t
      | [] => [[c]]

/-- Python `"; ".join(l)`. -/
def joinSemi : List String → String
  | [] => ""
  | [s] => s
  | s :: rest => s ++ "; " ++ joinSemi rest

/-! ## Python `float()` on decimal literals

`float(s)` is modelled over exact rationals for the decimal-literal grammar
`[+-]? (digits [. digits?] | . digits) ([eE] [+-]? digits)?`; the exotic
accepted spellings (`inf`, `nan`, digit underscores, unicode digits) are
outside the model.  Inputs are already stripped by the caller, as in the
source. -/

/-- Value of a digit list, most significant first. -/
def digitsVal (l : List Char) : Nat :=
  l.foldl (fun n c => 10 * n + (c.toNat - 48)) 0

/-- Split a list at the first character satisfying `p`; `none` when absent. -/
def splitFirst (p : Char → Bool) : List Char → Option (List Char × List Char)
  | [] => none
  | c :: rest =>
    if p c then some ([], rest)
    else (splitFirst p rest).map (fun q => (c :: q.1, q.2))

/-- Mantissa: `digits`, `digits.`, `digits.digits` or `.digits`. -/
def parseMantissa (l : List Char) : Option ℚ :=
  match splitFirst (fun c => c = '.') l with
  | none =>
    if l ≠ [] ∧ l.all Char.isDigit then some (digitsVal l) else none
  | some (ip, fp) =>
    if (ip ≠ [] ∨ fp ≠ []) ∧ ip.all Char.isDigit ∧ fp.all Char.isDigit then
      some ((digitsVal ip : ℚ) + (digitsVal fp : ℚ) / (10 : ℚ) ^ fp.length)
    else none

/-- Exponent part after `e`/`E`: optionally signed digits. -/
def parseExpPart (l : List Char) : Option ℤ :=
  match l with
  | '+' :: r =>
    if r ≠ [] ∧ r.all Char.isDigit then some (digitsVal r : ℤ) else none
  | '-' :: r =>
    if r ≠ [] ∧ r.all Char.isDigit then some (-(digitsVal r : ℤ)) else none
  | r =>
    if r ≠ [] ∧ r.all Char.isDigit then some (digitsVal r : ℤ) else none

/-- Unsigned float literal: mantissa with optional exponent. -/
def parseUnsignedFloat (l : List Char) : Option ℚ :=
  match splitFirst (fun c => c = 'e' || c = 'E') l with
  | none => parseMantissa l
  | some (m, e) =>
    match parseMantissa m, parseExpPart e with
    | some mv, some ev => some (mv * (10 : ℚ) ^ ev)
    | _, _ => none

/-- Python `float(s)` (`none` when `float` would raise `ValueError`). -/
def pyFloat (s : String) : Option ℚ :=
  match s.data with
  | [] => none
  | '+' :: r => parseUnsignedFloat r
  | '-' :: r => (parseUnsignedFloat r).map Neg.neg
  | l => parseUnsignedFloat l

/-! ## Data model of the dispatch pipeline -/

/-- A scalar JSON value as handled by the reformatter: a string, a number
(Python floats as exact rationals) or Python `None`. -/
inductive Val : Type
  | vstr (s : String)
  | vnum (q : ℚ)
  | vnone
deriving DecidableEq

/-- The dynamically keyed dict built by `reformat_dispatch`. -/
abbrev PyDict := List (String × Val)

/-- A sub-item of a list-valued `itemvalue`; `none` means the `itemdesc` key
is absent (present values are strings in the data handled here). -/
structure SubItem : Type where
  itemdesc : Option String
deriving DecidableEq

/-- Resolved `fields` value: a plain string or a list of sub-items. -/
inductive FieldVal : Type
  | fstr (s : String)
  | flist (l : List SubItem)
deriving DecidableEq

/-- One entry of a raw dispatch's `fields` list.  `none` stands for an absent
key or a `None` value: `field.get(k)` cannot tell the two apart, which is the
only way the source reads these keys. -/
structure Field : Type where
  catname : Option String
  itemdesc : Option String
  itemvalue : Option FieldVal
deriving DecidableEq

/-- One entry of a raw dispatch's `lineitems` list, with the seven tracked
attributes.  `none` stands for an absent key or a `None` value (the source
skips both: `key in item and item[key] is not None`); present values are
modelled after Python `str()` rendering, hence as strings. -/
structure LineItem : Type where
  phase : Option String
  phasedesc : Option String
  qty : Option String
  notes : Option String
  mix : Option String
  mixdesc : Option String
  job : Option String
deriving DecidableEq

/-- An empty line item, convenient for building concrete examples. -/
def noLI : LineItem := ⟨none, none, none, none, none, none, none⟩

/-- The `crew` sub-structure.  `none` on the outside covers an absent or
non-dict `crew` value (the source checks `isinstance(crew_data, dict)`);
`none` fields are absent keys. -/
structure CrewData : Type where
  firstname : Option String
  lastname : Option String
deriving DecidableEq

/-- A raw dispatch record, restricted to the keys the source reads.  The
seven scalar fields are `Option Val`: `none` means the key is absent (the
comprehension over `initial_keys` tests `key in dispatch`), `some .vnone`
a key present with value `None` (copied through). -/
structure Dispatch : Type where
  shiftid : Option Val
  startdatetime : Option Val
  enddatetime : Option Val
  dispatchnotes : Option Val
  tph : Option Val
  tpr : Option Val
  totalsy : Option Val
  crew : Option CrewData
  fields : List Field
  lineitems : List LineItem
deriving DecidableEq

/-- A dispatch with nothing in it, convenient for building examples. -/
def emptyDispatch : Dispatch :=
  ⟨none, none, none, none, none, none, none, none, [], []⟩

/-! ## `reformat_dispatch` -/

/-- The `initial_keys` comprehension:
`{key: dispatch.get(key) for key in initial_keys if key in dispatch}`.
The seven keys are distinct, so building the list directly is the dict. -/
def initialScalars (d : Dispatch) : PyDict :=
  ([("shiftid", d.shiftid), ("startdatetime", d.startdatetime),
    ("enddatetime", d.enddatetime), ("dispatchnotes", d.dispatchnotes),
    ("tph", d.tph), ("tpr", d.tpr),
    ("totalsy", d.totalsy)]).filterMap
    (fun p => p.2.map (fun v => (p.1, v)))

/-- `reformatted["crew"] = f"{crew['firstname']} {crew['lastname']}"` when
`crew` is a dict with both name keys. -/
def addCrew (r : PyDict) (d : Dispatch) : PyDict :=
  match d.crew with
  | some c =>
    match c.firstname, c.lastname with
    | some f, some l => aset r "crew" (.vstr (f ++ " " ++ l))
    | _, _ => r
  | none => r

/-- `item_value = field.get("itemdesc") or field.get("itemvalue")`: Python
`or` falls through on a falsy left operand, so an *empty* `itemdesc` string
also defers to `itemvalue`. -/
def resolveItemValue (f : Field) : Option FieldVal :=
  match f.itemdesc with
  | some s => if s = "" then f.itemvalue else some (.fstr s)
  | none => f.itemvalue

/-- List-valued items collapse to
`"; ".join(item.get("itemdesc", "") for item in item_value if "itemdesc" in item)`. -/
def collapseFieldVal : FieldVal → Val
  | .fstr s => .vstr s
  | .flist l => .vstr (joinSemi (l.filterMap SubItem.itemdesc))

/-- One iteration of the `fields` loop; the assignment is guarded by
`if catname and item_value is not None` (truthy key, non-`None` value). -/
def applyField (r : PyDict) (f : Field) : PyDict :=
  match f.catname, resolveItemValue f with
  | some c, some v => if c = "" then r else aset r c (collapseFieldVal v)
  | _, _ => r

/-- The whole `fields` loop. -/
def applyFields (r : PyDict) (fs : List Field) : PyDict :=
  fs.foldl applyField r

/-- Per-attribute accumulation over `lineitems` (the loop appends, per item,
each tracked attribute that is present and not `None`; accumulating one
attribute at a time over the whole list gives the same per-attribute lists). -/
def collectAttr (items : List LineItem) (g : LineItem → Option String) :
    List String :=
  items.filterMap g

/-- The `job` accumulation: values are stripped (`.strip("; ").strip()`) and
appended only when not already collected. -/
def collectJob (items : List LineItem) : List String :=
  items.foldl
    (fun acc it =>
      match it.job with
      | some v =>
        let j := jobStrip v
        if j ∈ acc then acc else acc ++ [j]
      | none => acc)
    []

/-- `reformatted[key] = "; ".join(values)` for the seven tracked attributes,
in the insertion order of `lineitems_attributes`. -/
def addLineitems (r : PyDict) (items : List LineItem) : PyDict :=
  let r := aset r "phase" (.vstr (joinSemi (collectAttr items LineItem.phase)))
  let r := aset r "phasedesc"
    (.vstr (joinSemi (collectAttr items LineItem.phasedesc)))
  let r := aset r "qty" (.vstr (joinSemi (collectAttr items LineItem.qty)))
  let r := aset r "notes" (.vstr (joinSemi (collectAttr items LineItem.notes)))
  let r := aset r "mix" (.vstr (joinSemi (collectAttr items LineItem.mix)))
  let r := aset r "mixdesc"
    (.vstr (joinSemi (collectAttr items LineItem.mixdesc)))
  aset r "job" (.vstr (joinSemi (collectJob items)))

/-- The tonnage sum:
`sum(float(qty.strip()) for qty in reformatted["qty"].split(";") if qty.strip())`
with the whole total falling back to `0` on any `ValueError`. -/
def computeTonnage (s : String) : ℚ :=
  let pieces :=
    ((splitSemi s.data).map (fun l => pyStrip ⟨l⟩)).filter (fun p => p ≠ "")
  match pieces.mapM pyFloat with
  | some qs => qs.sum
  | none => 0

/-- The `Material Tonnage` step, guarded by `if "qty" in reformatted`.  After
`addLineitems` the value under `"qty"` is always the joined string; a
non-string value there would crash the Python and is unreachable
(`qty_is_joined_string` below). -/
def addTonnage (r : PyDict) : PyDict :=
  match alookup r "qty" with
  | some (.vstr s) => aset r "Material Tonnage" (.vnum (computeTonnage s))
  | _ => r

/-- `reformat_dispatch`, the composition of the four stages of the source. -/
def reformat_dispatch (d : Dispatch) : PyDict :=
  addTonnage
    (addLineitems (applyFields (addCrew (initialScalars d) d) d.fields)
      d.lineitems)

/-! ## `summarize_results`

The printer is written against generic dict entries: its lookups may hit a
scalar or (under `"lineitems"`) a list of line items, so generic entries are
`List (String × GVal)`.  Reformatted records embed via `toGDict` (they hold
scalars only).  Each `print(...)` call is modelled as one emitted string. -/

/-- A value in an entry handed to the printer. -/
inductive GVal : Type
  | scalar (v : Val)
  | vlist (items : List LineItem)
deriving DecidableEq

/-- An entry as the printer sees it. -/
abbrev GDict := List (String × GVal)

/-- A reformatted record as a printer entry. -/
def toGDict (d : PyDict) : GDict := d.map (fun p => (p.1, .scalar p.2))

/-- f-string rendering of a scalar.  Numbers never reach an f-string in this
program (`Material Tonnage` is not printed), so their rendering is a plain
decimal of the numerator; `None` renders as `"None"` as in Python. -/
def pyShow : Val → String
  | .vstr s => s
  | .vnone => "None"
  | .vnum q => toString q.num ++ "." ++ toString q.den

/-- `entry.get(k, dflt)` rendered into an f-string.  A list value under one
of the four header keys would crash the Python formatting machinery only in
unreachable states (reformatted records carry no lists); it falls back to
the default here. -/
def gdictGetStr (e : GDict) (k dflt : String) : String :=
  match alookup e k with
  | some (.scalar v) => pyShow v
  | some (.vlist _) => dflt
  | none => dflt

/-- Python `"{:<n}".format(s)`: left-justify by padding with spaces, no
truncation. -/
def ljust (n : Nat) (s : String) : String :=
  s ++ String.mk (List.replicate (n - s.length) ' ')

/-- `lineitem.get(k) or "N/A"`: the fallback fires on a missing key, a
`None` value and an empty string (falsy). -/
def orNA : Option String → String
  | some s => if s = "" then "N/A" else s
  | none => "N/A"

/-- `"\n{:<20} {:<50} {:<10} {:<30}".format("Phase", "Description",
"Quantity", "Notes")`. -/
def tableHeader : String :=
  "\n" ++ ljust 20 "Phase" ++ " " ++ ljust 50 "Description" ++ " " ++
    ljust 10 "Quantity" ++ " " ++ ljust 30 "Notes"

/-- `"-" * 120`. -/
def dashRule : String := String.mk (List.replicate 120 '-')

/-- One table row: `"{:<20} {:<50} {:<10} {:<30}".format(...)` over the four
per-row fields with their `or "N/A"` fallbacks. -/
def renderRow (li : LineItem) : String :=
  ljust 20 (orNA li.phase) ++ " " ++ ljust 50 (orNA li.phasedesc) ++ " " ++
    ljust 10 (orNA li.qty) ++ " " ++ ljust 30 (orNA li.notes)

/-- `entry.get("lineitems", [])`.  A scalar under `"lineitems"` would crash
the row loop in Python (`.get` on a non-dict); reformatted records never
carry one (hypothesis discharged in the C5 theorem), and the branch returns
the default. -/
def entryLineitems (e : GDict) : List LineItem :=
  match alookup e "lineitems" with
  | some (.vlist l) => l
  | _ => []

/-- The four header lines printed before the table. -/
def headerLines (e : GDict) : List String :=
  [ "Project: " ++ gdictGetStr e "Job Number" "N/A" ++ " - " ++
      gdictGetStr e "Job Name" "N/A"
  , "Crew: " ++ gdictGetStr e "crew" "N/A"
  , "Load Out Time: " ++ gdictGetStr e "Plant Load Out" "N/A"
  , "Paving Start Time: " ++ gdictGetStr e "Paving Start" "N/A" ]

/-- All strings printed for one entry, in order. -/
def summarizeEntry (e : GDict) : List String :=
  headerLines e ++ [tableHeader, dashRule] ++
    (entryLineitems e).map renderRow ++ ["\n" ++ dashRule ++ "\n"]

/-- `summarize_results`: the whole report, entry by entry. -/
def summarize_results : List GDict → List String
  | [] => []
  | e :: rest => summarizeEntry e ++ summarize_results rest

/-! ## Configuration file, sessions, and the API-call gateway -/

/-- The module-level `REQUIRED_FIELDS`. -/
def REQUIRED_FIELDS : List String :=
  ["CompanyID", "Manager", "Passcode", "SessionID", "SessionPassword",
   "UserName"]

/-- One line of the YAML configuration file as `ruamel.yaml` sees it: a
key/value entry carrying an opaque formatting payload `fmt` (quoting,
spacing, attached comments), or a standalone comment line. -/
inductive YamlLine : Type
  | entry (k v fmt : String)
  | comment (text : String)
deriving DecidableEq

/-- The configuration file. -/
structure YamlDoc : Type where
  lines : List YamlLine
deriving DecidableEq

/-- A parsed configuration mapping (string keys to string values). -/
abbrev Config := List (String × String)

/-- The error taxonomy of the spec, mapped onto the raise sites of the
source (`ValueError` on missing fields ↦ `missingData`, `RequestException`
↦ `networkError`, `ValueError` on a response without `SessionInformation`
↦ `upstreamError`). -/
inductive ApiError : Type
  | missingData
  | networkError
  | upstreamError
deriving DecidableEq

/-- One step of YAML parsing: an entry line populates the mapping, a
comment line contributes nothing. -/
def pcStep (c : Config) : YamlLine → Config
  | .entry k v _ => aset c k v
  | .comment _ => c

/-- `yaml.safe_load`: the mapping content of the file. -/
def parseConfig (doc : YamlDoc) : Config :=
  doc.lines.foldl pcStep []

/-- `load_config`: parse, then fail unless
`all(field in config for field in REQUIRED_FIELDS)`. -/
def load_config (doc : YamlDoc) : Except ApiError Config :=
  let c := parseConfig doc
  if REQUIRED_FIELDS.all (fun k => (alookup c k).isSome) then .ok c
  else .error .missingData

/-- Does the file contain an entry for key `k`? -/
def docHasKey (doc : YamlDoc) (k : String) : Bool :=
  doc.lines.any
    (fun l =>
      match l with
      | .entry k' _ _ => k' = k
      | .comment _ => false)

/-- Rewrite the value of every entry for key `k`, keeping its formatting. -/
def lineUpdate (k v : String) : YamlLine → YamlLine
  | .entry k' v' fmt => if k' = k then .entry k' v fmt else .entry k' v' fmt
  | .comment t => .comment t

/-- `config[field] = updates[field]` on a `ruamel` round-trip document:
update the entry in place preserving its formatting and everything around
it, or append a fresh entry when the key is new. -/
def docSet (doc : YamlDoc) (k v : String) : YamlDoc :=
  if docHasKey doc k then ⟨doc.lines.map (lineUpdate k v)⟩
  else ⟨doc.lines ++ [.entry k v ""]⟩

/-- One step of the update loop: `if field in updates: config[field] = ...`. -/
def ucfStep (updates : Config) (d : YamlDoc) (k : String) : YamlDoc :=
  match alookup updates k with
  | some v => docSet d k v
  | none => d

/-- `update_config_file`: for each required field present in `updates`,
overwrite that key; dump preserves all other content. -/
def update_config_file (doc : YamlDoc) (updates : Config) : YamlDoc :=
  REQUIRED_FIELDS.foldl (ucfStep updates) doc

/-- Query parameters of an HTTP GET. -/
abbrev Params := List (String × String)

/-- The `SessionInformation` object of a session-start response. -/
abbrev SessionInfo := List (String × String)

/-- The decoded JSON body of a response, restricted to the keys the source
reads (`ErrorCode`, `SessionInformation`). -/
structure RespData : Type where
  errorCode : Option String
  sessionInformation : Option SessionInfo
deriving DecidableEq

/-- Outcome of `requests.get` + `raise_for_status` + `.json()`: a decoded
body, or a transport/HTTP-status failure (`RequestException`). -/
inductive HttpResp : Type
  | ok (data : RespData)
  | fail
deriving DecidableEq

/-- The remote service, as an oracle from query parameters to responses. -/
abbrev Remote := Params → HttpResp

/-- `{key: config[key] for key in REQUIRED_FIELDS if key in config}`. -/
def reqParams (config : Config) : Params :=
  REQUIRED_FIELDS.filterMap
    (fun k => (alookup config k).map (fun v => (k, v)))

/-- The parameters of `fetch_new_session`: the required fields plus
`Method = StartAPISession`. -/
def buildSessionParams (config : Config) : Params :=
  aset (reqParams config) "Method" "StartAPISession"

/-- `fetch_new_session`: one GET; `ValueError` when the body lacks
`SessionInformation`.  Returns the result and the number of HTTP requests
issued (here always 1). -/
def fetch_new_session (remote : Remote) (config : Config) :
    Except ApiError SessionInfo × Nat :=
  match remote (buildSessionParams config) with
  | .fail => (.error .networkError, 1)
  | .ok data =>
    match data.sessionInformation with
    | none => (.error .upstreamError, 1)
    | some si => (.ok si, 1)

/-- `get_or_refresh_session`: load the file, fetch a new session, merge it
into the configuration (`config.update(session_info)`) and persist.  The
resulting file state is threaded explicitly; on an error path the file is
untouched.  The `Nat` counts HTTP requests issued. -/
def get_or_refresh_session (remote : Remote) (doc : YamlDoc) :
    Except ApiError Config × YamlDoc × Nat :=
  match load_config doc with
  | .error e => (.error e, doc, 0)
  | .ok config =>
    match fetch_new_session remote config with
    | (.error e, n) => (.error e, doc, n)
    | (.ok si, n) =>
      let config' := si.foldl (fun c p => aset c p.1 p.2) config
      (.ok config', update_config_file doc config', n)

/-- The parameter set of `make_api_call`: the required fields, then
`Method`/`StartTime`/`EndTime`, then — when both session keys are present —
`SessionID` again and the session password a second time under `SP`. -/
def buildApiParams (config : Config) (method startD endD : String) : Params :=
  let ps := reqParams config
  let ps := aset (aset (aset ps "Method" method) "StartTime" startD)
    "EndTime" endD
  match alookup config "SessionID", alookup config "SessionPassword" with
  | some sid, some sp => aset (aset ps "SessionID" sid) "SP" sp
  | _, _ => ps

/-- The recursion of `make_api_call`, driven by the retry budget
`3 - attempt` (the source guard `attempt <= 2` holds exactly when
`1 ≤ 3 - attempt`, and retrying with `attempt + 1` decrements the budget,
so this is the same function with a structurally decreasing argument).
Returns the result, the final file state, and the number of HTTP requests
issued, counting those of the session refresh. -/
def makeApiCallGo (remote : Remote) (method startD endD : String) :
    Nat → YamlDoc → Except ApiError RespData × YamlDoc × Nat
  | budget, doc =>
    match load_config doc with
    | .error e => (.error e, doc, 0)
    | .ok config =>
      match remote (buildApiParams config method startD endD) with
      | .fail => (.error .networkError, doc, 1)
      | .ok data =>
        if data.errorCode = some "1" then
          match budget with
          | b + 1 =>
            match get_or_refresh_session remote doc with
            | (.error e, doc', n) => (.error e, doc', 1 + n)
            | (.ok _, doc', n) =>
              match makeApiCallGo remote method startD endD b doc' with
              | (res, doc'', n') => (res, doc'', 1 + n + n')
          | 0 => (.ok data, doc, 1)
        else (.ok data, doc, 1)

/-- `make_api_call(method, start_date, end_date, config_file, attempt)`;
the script always calls it with the default `attempt = 1`. -/
def make_api_call (remote : Remote) (method startD endD : String)
    (doc : YamlDoc) (attempt : Nat) :
    Except ApiError RespData × YamlDoc × Nat :=
  makeApiCallGo remote method startD endD (3 - attempt) doc

/-! ## Concrete inputs used by witnesses and counterexamples -/

/-- Two line items carrying `phase` and `qty` only (spec §8, property 7). -/
def cAggDispatch : Dispatch :=
  { emptyDispatch with
    lineitems := [{ noLI with phase := some "1", qty := some "10" },
                  { noLI with phase := some "2", qty := some "20" }] }

/-- Line items whose quantities join to `"10; 20; 5"`. -/
def cQtyGood : Dispatch :=
  { emptyDispatch with
    lineitems := [{ noLI with qty := some "10" },
                  { noLI with qty := some "20" },
                  { noLI with qty := some "5" }] }

/-- Line items whose quantities join to `"10; abc"`. -/
def cQtyBad : Dispatch :=
  { emptyDispatch with
    lineitems := [{ noLI with qty := some "10" },
                  { noLI with qty := some "abc" }] }

/-- A `fields` entry with a *present but empty* `itemdesc` and a non-empty
`itemvalue`: Python's `or` falls through on the empty string. -/
def cEmptyDescField : Field := ⟨some "K", some "", some (.fstr "X")⟩

/-- A dispatch carrying only `cEmptyDescField`. -/
def cEmptyDescDispatch : Dispatch :=
  { emptyDispatch with fields := [cEmptyDescField] }

/-- The list-valued `fields` example of spec §8, property 6. -/
def cMaterialsField : Field :=
  ⟨some "Materials", none, some (.flist [⟨some "Sand"⟩, ⟨some "Gravel"⟩])⟩

/-- A configuration file holding the six required keys, a comment and an
extra operator key. -/
def cDoc : YamlDoc :=
  ⟨[.entry "CompanyID" "C" " # quoted", .comment "# operator note",
    .entry "Manager" "M" "", .entry "Passcode" "P" "",
    .entry "SessionID" "old" "", .entry "SessionPassword" "oldp" "",
    .entry "UserName" "U" "", .entry "Extra" "E" ""]⟩

/-- The parsed content of `cDoc`. -/
def cCfg : Config := parseConfig cDoc

/-- A remote that always answers `ErrorCode == "1"` *and* ships a
`SessionInformation` object, so every session refresh succeeds. -/
def cRemoteErrWithSession : Remote := fun _ =>
  .ok ⟨some "1", some [("SessionID", "S1"), ("SessionPassword", "P1")]⟩

/-- A remote that always answers `ErrorCode == "1"` with no
`SessionInformation`. -/
def cRemoteErrNoSession : Remote := fun _ => .ok ⟨some "1", none⟩

/-- A remote whose `StartAPISession` answer carries fresh session
credentials. -/
def cRemoteFreshSession : Remote := fun _ =>
  .ok ⟨none, some [("SessionID", "S1"), ("SessionPassword", "P1")]⟩

/-- `cDoc` with the `SessionID` line removed. -/
def cDocMissing : YamlDoc :=
  ⟨[.entry "CompanyID" "C" " # quoted", .comment "# operator note",
    .entry "Manager" "M" "", .entry "Passcode" "P" "",
    .entry "SessionPassword" "oldp" "",
    .entry "UserName" "U" "", .entry "Extra" "E" ""]⟩

/-! ## Lemmas on the reformatter stages -/

theorem alookup_toGDict (r : PyDict) (k : String) :
    alookup (toGDict r) k = (alookup r k).map GVal.scalar := by
  induction r with
  | nil => rfl
  | cons p t ih =>
    by_cases h : p.1 = k
    · simp [toGDict, alookup, h]
    · simp [toGDict, alookup, h] at ih ⊢
      exact ih

theorem alookup_filterMapScalars (ps : List (String × Option Val))
    (k : String) (h : ∀ p ∈ ps, p.1 ≠ k) :
    alookup (ps.filterMap (fun p => p.2.map (fun v => (p.1, v)))) k =
      none := by
  induction ps with
  | nil => rfl
  | cons p t ih =>
    have hp := h p (by simp)
    have ht : ∀ q ∈ t, q.1 ≠ k := fun q hq => h q (by simp [hq])
    cases hv : p.2 with
    | none => simpa [hv] using ih ht
    | some v => simpa [hv, alookup, hp] using ih ht

theorem initialScalars_lookup_none (d : Dispatch) (k : String)
    (h : ¬ k ∈ (["shiftid", "startdatetime", "enddatetime", "dispatchnotes",
      "tph", "tpr", "totalsy"] : List String)) :
    alookup (initialScalars d) k = none := by
  apply alookup_filterMapScalars
  intro p hp
  simp only [List.mem_cons, List.not_mem_nil, or_false] at hp
  simp only [List.mem_cons, List.not_mem_nil, or_false, not_or] at h
  rcases hp with h1 | h1 | h1 | h1 | h1 | h1 | h1 <;>
    (rw [h1]; intro he; simp_all)

theorem addCrew_lookup_ne (r : PyDict) (d : Dispatch) (k : String)
    (h : k ≠ "crew") : alookup (addCrew r d) k = alookup r k := by
  unfold addCrew
  cases d.crew with
  | none => rfl
  | some c =>
    obtain ⟨fn, ln⟩ := c
    cases fn <;> cases ln <;> simp [alookup_aset_ne _ _ h]

theorem applyFields_lookup_ne (fs : List Field) (r : PyDict) (k : String)
    (h : ∀ f ∈ fs, ∀ c, f.catname = some c → c ≠ k) :
    alookup (applyFields r fs) k = alookup r k := by
  induction fs generalizing r with
  | nil => rfl
  | cons f t ih =>
    have ht : ∀ g ∈ t, ∀ c, g.catname = some c → c ≠ k :=
      fun g hg => h g (by simp [hg])
    have step : alookup (applyField r f) k = alookup r k := by
      unfold applyField
      cases hc : f.catname with
      | none => rfl
      | some c =>
        cases hv : resolveItemValue f with
        | none => rfl
        | some v =>
          by_cases hce : c = ""
          · simp [hce]
          · have hck : c ≠ k := h f (by simp) c hc
            simp [hce, alookup_aset_ne _ _ (fun he => hck he.symm)]
    calc alookup (applyFields (applyField r f) t) k
        = alookup (applyField r f) k := ih _ ht
      _ = alookup r k := step

theorem addLineitems_qty (r : PyDict) (items : List LineItem) :
    alookup (addLineitems r items) "qty" =
      some (.vstr (joinSemi (collectAttr items LineItem.qty))) := by
  simp [addLineitems, alookup_aset_self, alookup_aset_ne]

theorem addLineitems_ne (r : PyDict) (items : List LineItem) (k : String)
    (h : ¬ k ∈ (["phase", "phasedesc", "qty", "notes", "mix", "mixdesc",
      "job"] : List String)) :
    alookup (addLineitems r items) k = alookup r k := by
  simp only [List.mem_cons, List.not_mem_nil, or_false, not_or] at h
  obtain ⟨h1, h2, h3, h4, h5, h6, h7⟩ := h
  simp [addLineitems, alookup_aset_ne _ _ h1, alookup_aset_ne _ _ h2,
    alookup_aset_ne _ _ h3, alookup_aset_ne _ _ h4, alookup_aset_ne _ _ h5,
    alookup_aset_ne _ _ h6, alookup_aset_ne _ _ h7]

theorem addTonnage_eq (r : PyDict) (s : String)
    (h : alookup r "qty" = some (.vstr s)) :
    addTonnage r = aset r "Material Tonnage" (.vnum (computeTonnage s)) := by
  unfold addTonnage
  rw [h]

/-- The reformatter always ends by storing the tonnage of the joined `qty`
string: the aggregation loop put that string there unconditionally, so the
`if "qty" in reformatted` guard always passes. -/
theorem reformat_eq (d : Dispatch) :
    reformat_dispatch d =
      aset (addLineitems (applyFields (addCrew (initialScalars d) d)
          d.fields) d.lineitems)
        "Material Tonnage"
        (.vnum (computeTonnage
          (joinSemi (collectAttr d.lineitems LineItem.qty)))) := by
  unfold reformat_dispatch
  rw [addTonnage_eq _ _ (addLineitems_qty _ _)]

theorem addLineitems_lookups (r : PyDict) (items : List LineItem) :
    alookup (addLineitems r items) "phase" =
      some (.vstr (joinSemi (collectAttr items LineItem.phase))) ∧
    alookup (addLineitems r items) "phasedesc" =
      some (.vstr (joinSemi (collectAttr items LineItem.phasedesc))) ∧
    alookup (addLineitems r items) "qty" =
      some (.vstr (joinSemi (collectAttr items LineItem.qty))) ∧
    alookup (addLineitems r items) "notes" =
      some (.vstr (joinSemi (collectAttr items LineItem.notes))) ∧
    alookup (addLineitems r items) "mix" =
      some (.vstr (joinSemi (collectAttr items LineItem.mix))) ∧
    alookup (addLineitems r items) "mixdesc" =
      some (.vstr (joinSemi (collectAttr items LineItem.mixdesc))) ∧
    alookup (addLineitems r items) "job" =
      some (.vstr (joinSemi (collectJob items))) := by
  refine ⟨?_, ?_, ?_, ?_, ?_, ?_, ?_⟩ <;>
    simp [addLineitems, alookup_aset_self, alookup_aset_ne]

/-- Claim C9: the output of `reformat_dispatch` always contains the key
`"Material Tonnage"` (with a numeric value): the aggregation loop assigns
`"qty"` unconditionally, so the presence guard before the tonnage
computation always passes. -/
theorem claim_c9 (d : Dispatch) :
    ∃ t : ℚ,
      alookup (reformat_dispatch d) "Material Tonnage" = some (.vnum t) :=
  ⟨_, by rw [reformat_eq]; exact alookup_aset_self _ _ _⟩

/-- Claim C2: `Material Tonnage` is the sum of the float-parsed, trimmed,
non-empty pieces of the joined `qty` string split on `";"`, and is `0` as
soon as any single piece fails to parse (all-or-nothing). -/
theorem claim_c2 (d : Dispatch) :
    ∃ t : ℚ,
      alookup (reformat_dispatch d) "Material Tonnage" = some (.vnum t) ∧
      ((((splitSemi (joinSemi (collectAttr d.lineitems
            LineItem.qty)).data).map (fun l => pyStrip ⟨l⟩)).filter
          (fun p => p ≠ "")).mapM pyFloat = none → t = 0) ∧
      (∀ qs : List ℚ,
        (((splitSemi (joinSemi (collectAttr d.lineitems
            LineItem.qty)).data).map (fun l => pyStrip ⟨l⟩)).filter
          (fun p => p ≠ "")).mapM pyFloat = some qs → t = qs.sum) := by
  refine ⟨computeTonnage (joinSemi (collectAttr d.lineitems LineItem.qty)),
    ?_, ?_, ?_⟩
  · rw [reformat_eq]; exact alookup_aset_self _ _ _
  · intro h; simp only [computeTonnage, h]
  · intro qs h; simp only [computeTonnage, h]

/-- Claim C2 witness: `qty` pieces `10; 20; 5` give tonnage `35` and
`10; abc` gives `0`. -/
theorem claim_c2_witness :
    (∃ t : ℚ,
      alookup (reformat_dispatch cQtyGood) "Material Tonnage" =
        some (.vnum t) ∧
      ((((splitSemi (joinSemi (collectAttr cQtyGood.lineitems
            LineItem.qty)).data).map (fun l => pyStrip ⟨l⟩)).filter
          (fun p => p ≠ "")).mapM pyFloat = none → t = 0) ∧
      (∀ qs : List ℚ,
        (((splitSemi (joinSemi (collectAttr cQtyGood.lineitems
            LineItem.qty)).data).map (fun l => pyStrip ⟨l⟩)).filter
          (fun p => p ≠ "")).mapM pyFloat = some qs → t = qs.sum)) ∧
    alookup (reformat_dispatch cQtyGood) "Material Tonnage" =
      some (.vnum 35) ∧
    alookup (reformat_dispatch cQtyBad) "Material Tonnage" =
      some (.vnum 0) := by
  refine ⟨claim_c2 cQtyGood, ?_, ?_⟩
  · obtain ⟨t, hl, -, hsum⟩ := claim_c2 cQtyGood
    have hmap : (((splitSemi (joinSemi (collectAttr cQtyGood.lineitems
          LineItem.qty)).data).map (fun l => pyStrip ⟨l⟩)).filter
        (fun p => p ≠ "")).mapM pyFloat = some [(10 : ℚ), 20, 5] := by
      decide
    have ht : t = ([(10 : ℚ), 20, 5]).sum := hsum _ hmap
    have h35 : t = 35 := by
      rw [ht]; norm_num [List.sum_cons, List.sum_nil]
    rw [← h35]; exact hl
  · obtain ⟨t, hl, hnone, -⟩ := claim_c2 cQtyBad
    have hmap : (((splitSemi (joinSemi (collectAttr cQtyBad.lineitems
          LineItem.qty)).data).map (fun l => pyStrip ⟨l⟩)).filter
        (fun p => p ≠ "")).mapM pyFloat = none := by decide
    have h0 : t = 0 := hnone hmap
    rw [← h0]; exact hl

/-- Claim C3: every tracked line-item attribute is stored as the `"; "`-join
of the values collected across the line items in order (with `job` stripped
and deduplicated), and every attribute key is present — an attribute with no
contributing line item yields the empty string. -/
theorem claim_c3 (d : Dispatch) :
    alookup (reformat_dispatch d) "phase" =
      some (.vstr (joinSemi (collectAttr d.lineitems LineItem.phase))) ∧
    alookup (reformat_dispatch d) "phasedesc" =
      some (.vstr (joinSemi (collectAttr d.lineitems LineItem.phasedesc))) ∧
    alookup (reformat_dispatch d) "qty" =
      some (.vstr (joinSemi (collectAttr d.lineitems LineItem.qty))) ∧
    alookup (reformat_dispatch d) "notes" =
      some (.vstr (joinSemi (collectAttr d.lineitems LineItem.notes))) ∧
    alookup (reformat_dispatch d) "mix" =
      some (.vstr (joinSemi (collectAttr d.lineitems LineItem.mix))) ∧
    alookup (reformat_dispatch d) "mixdesc" =
      some (.vstr (joinSemi (collectAttr d.lineitems LineItem.mixdesc))) ∧
    alookup (reformat_dispatch d) "job" =
      some (.vstr (joinSemi (collectJob d.lineitems))) ∧
    ∀ k ∈ (["phase", "phasedesc", "qty", "notes", "mix", "mixdesc",
        "job"] : List String),
      ∃ s, alookup (reformat_dispatch d) k = some (.vstr s) := by
  obtain ⟨h1, h2, h3, h4, h5, h6, h7⟩ :=
    addLineitems_lookups
      (applyFields (addCrew (initialScalars d) d) d.fields) d.lineitems
  have frame : ∀ k : String, k ≠ "Material Tonnage" →
      alookup (reformat_dispatch d) k =
        alookup (addLineitems
          (applyFields (addCrew (initialScalars d) d) d.fields)
          d.lineitems) k := by
    intro k hk
    rw [reformat_eq, alookup_aset_ne _ _ hk]
  have e1 := (frame "phase" (by decide)).trans h1
  have e2 := (frame "phasedesc" (by decide)).trans h2
  have e3 := (frame "qty" (by decide)).trans h3
  have e4 := (frame "notes" (by decide)).trans h4
  have e5 := (frame "mix" (by decide)).trans h5
  have e6 := (frame "mixdesc" (by decide)).trans h6
  have e7 := (frame "job" (by decide)).trans h7
  refine ⟨e1, e2, e3, e4, e5, e6, e7, ?_⟩
  intro k hk
  simp only [List.mem_cons, List.not_mem_nil, or_false] at hk
  rcases hk with rfl | rfl | rfl | rfl | rfl | rfl | rfl
  · exact ⟨_, e1⟩
  · exact ⟨_, e2⟩
  · exact ⟨_, e3⟩
  · exact ⟨_, e4⟩
  · exact ⟨_, e5⟩
  · exact ⟨_, e6⟩
  · exact ⟨_, e7⟩

/-- Claim C3 witness: the aggregation at a concrete two-line-item dispatch,
plus the evaluated joins `"1; 2"` and `"10; 20"` of the spec's example. -/
theorem claim_c3_witness :
    (alookup (reformat_dispatch cAggDispatch) "phase" =
      some (.vstr (joinSemi (collectAttr cAggDispatch.lineitems
        LineItem.phase))) ∧
    alookup (reformat_dispatch cAggDispatch) "phasedesc" =
      some (.vstr (joinSemi (collectAttr cAggDispatch.lineitems
        LineItem.phasedesc))) ∧
    alookup (reformat_dispatch cAggDispatch) "qty" =
      some (.vstr (joinSemi (collectAttr cAggDispatch.lineitems
        LineItem.qty))) ∧
    alookup (reformat_dispatch cAggDispatch) "notes" =
      some (.vstr (joinSemi (collectAttr cAggDispatch.lineitems
        LineItem.notes))) ∧
    alookup (reformat_dispatch cAggDispatch) "mix" =
      some (.vstr (joinSemi (collectAttr cAggDispatch.lineitems
        LineItem.mix))) ∧
    alookup (reformat_dispatch cAggDispatch) "mixdesc" =
      some (.vstr (joinSemi (collectAttr cAggDispatch.lineitems
        LineItem.mixdesc))) ∧
    alookup (reformat_dispatch cAggDispatch) "job" =
      some (.vstr (joinSemi (collectJob cAggDispatch.lineitems))) ∧
    ∀ k ∈ (["phase", "phasedesc", "qty", "notes", "mix", "mixdesc",
        "job"] : List String),
      ∃ s, alookup (reformat_dispatch cAggDispatch) k =
        some (.vstr s)) ∧
    alookup (reformat_dispatch cAggDispatch) "phase" =
      some (.vstr "1; 2") ∧
    alookup (reformat_dispatch cAggDispatch) "qty" =
      some (.vstr "10; 20") ∧
    alookup (reformat_dispatch cAggDispatch) "mix" = some (.vstr "") :=
  ⟨claim_c3 cAggDispatch, by decide, by decide, by decide⟩

/-! ## Claim C4: the `fields` projection -/

/-- Modelled from the claim (C4) wording, for comparison with the source:
the value resolves to `itemdesc` whenever that key is *present*, else to
`itemvalue`. -/
def c4ClaimResolve (f : Field) : Option FieldVal :=
  match f.itemdesc with
  | some s => some (.fstr s)
  | none => f.itemvalue

/-- Modelled from the claim (C4) wording: assign the collapsed value under
`catname` whenever the key and the resolved value are present. -/
def c4ClaimAssign (r : PyDict) (f : Field) : PyDict :=
  match f.catname, c4ClaimResolve f with
  | some c, some v => aset r c (collapseFieldVal v)
  | _, _ => r

/-- Claim C4 counterexample: on a field entry with a present-but-empty
`itemdesc` and `itemvalue = "X"`, the code assigns `"X"` (Python `or` falls
through on the falsy empty string) while the claim's resolution rule —
`itemdesc` if present — assigns `""`. -/
theorem claim_c4_counterexample :
    alookup (reformat_dispatch cEmptyDescDispatch) "K" =
      some (.vstr "X") ∧
    alookup (c4ClaimAssign [] cEmptyDescField) "K" = some (.vstr "") ∧
    (Val.vstr "X") ≠ (Val.vstr "") := by decide

/-- Claim C4 as amended: the value resolves to `itemdesc` when that is a
*non-empty* string and otherwise falls through to `itemvalue`; a list value
collapses by joining the sub-items' `itemdesc` (sub-items lacking it are
skipped); the assignment happens when `catname` is present and *non-empty*
and the resolved value is not `None`. -/
theorem claim_c4_amended (f : Field) (c : String) (v : FieldVal)
    (hc : f.catname = some c) (hcne : c ≠ "")
    (hv : (match f.itemdesc with
           | some s => if s = "" then f.itemvalue else some (FieldVal.fstr s)
           | none => f.itemvalue) = some v)
    (hk : ¬ c ∈ (["phase", "phasedesc", "qty", "notes", "mix", "mixdesc",
      "job", "Material Tonnage"] : List String)) :
    alookup (reformat_dispatch { emptyDispatch with fields := [f] }) c =
      some (collapseFieldVal v) ∧
    ∀ l : List SubItem,
      collapseFieldVal (.flist l) =
        .vstr (joinSemi (l.filterMap SubItem.itemdesc)) := by
  have hres : resolveItemValue f = some v := hv
  simp only [List.mem_cons, List.not_mem_nil, or_false, not_or] at hk
  obtain ⟨n1, n2, n3, n4, n5, n6, n7, n8⟩ := hk
  refine ⟨?_, fun l => rfl⟩
  rw [reformat_eq, alookup_aset_ne _ _ n8,
    addLineitems_ne _ _ _
      (by simp only [List.mem_cons, List.not_mem_nil, or_false, not_or]
          exact ⟨n1, n2, n3, n4, n5, n6, n7⟩)]
  have hbase : applyFields
      (addCrew (initialScalars { emptyDispatch with fields := [f] })
        { emptyDispatch with fields := [f] })
      [f] = applyField [] f := by
    simp [initialScalars, emptyDispatch, addCrew, applyFields]
  rw [hbase]
  unfold applyField
  rw [hc, hres]
  simp only [hcne, if_false]
  exact alookup_aset_self _ _ _

/-- Claim C4 witness (amended form): the list-valued `Materials` example
collapses to `"Sand; Gravel"`. -/
theorem claim_c4_witness :
    alookup (reformat_dispatch { emptyDispatch with
      fields := [cMaterialsField] }) "Materials" =
      some (.vstr "Sand; Gravel") := by
  have h := claim_c4_amended cMaterialsField "Materials"
    (.flist [⟨some "Sand"⟩, ⟨some "Gravel"⟩]) rfl (by decide) rfl (by decide)
  exact h.1

/-! ## Claim C5: the line-item table of the report -/

theorem reformat_lineitems_none (d : Dispatch)
    (h : ∀ f ∈ d.fields, f.catname ≠ some "lineitems") :
    alookup (reformat_dispatch d) "lineitems" = none := by
  rw [reformat_eq, alookup_aset_ne _ _ (by decide),
    addLineitems_ne _ _ _ (by decide),
    applyFields_lookup_ne _ _ _
      (fun f hf c hc he => h f hf (by rw [he] at hc; exact hc)),
    addCrew_lookup_ne _ _ _ (by decide),
    initialScalars_lookup_none _ _ (by decide)]

/-- Claim C5: for a reformatted record, the printer emits the fixed-width
table header and the dash rule, then one row per line item present on the
record — each row left-justified at widths 20/50/10/30 with the literal
`N/A` fallback per missing field.  Reformatted records carry no `lineitems`
key (the reformatter collapses line items into strings), so the row list is
empty. -/
theorem claim_c5 (d : Dispatch)
    (h : ∀ f ∈ d.fields, f.catname ≠ some "lineitems") :
    summarizeEntry (toGDict (reformat_dispatch d)) =
      headerLines (toGDict (reformat_dispatch d)) ++
        [tableHeader, dashRule] ++
        (entryLineitems (toGDict (reformat_dispatch d))).map renderRow ++
        ["\n" ++ dashRule ++ "\n"] ∧
    entryLineitems (toGDict (reformat_dispatch d)) = [] ∧
    ∀ li : LineItem,
      renderRow li =
        ljust 20 (orNA li.phase) ++ " " ++ ljust 50 (orNA li.phasedesc) ++
          " " ++ ljust 10 (orNA li.qty) ++ " " ++
          ljust 30 (orNA li.notes) := by
  refine ⟨rfl, ?_, fun li => rfl⟩
  simp [entryLineitems, alookup_toGDict, reformat_lineitems_none d h]

/-- Claim C5 witness at a record with two (collapsed) line items. -/
theorem claim_c5_witness :
    summarizeEntry (toGDict (reformat_dispatch cAggDispatch)) =
      headerLines (toGDict (reformat_dispatch cAggDispatch)) ++
        [tableHeader, dashRule] ++
        (entryLineitems (toGDict (reformat_dispatch cAggDispatch))).map
          renderRow ++
        ["\n" ++ dashRule ++ "\n"] ∧
    entryLineitems (toGDict (reformat_dispatch cAggDispatch)) = [] ∧
    ∀ li : LineItem,
      renderRow li =
        ljust 20 (orNA li.phase) ++ " " ++ ljust 50 (orNA li.phasedesc) ++
          " " ++ ljust 10 (orNA li.qty) ++ " " ++
          ljust 30 (orNA li.notes) :=
  claim_c5 cAggDispatch
    (by intro f hf; simp [cAggDispatch, emptyDispatch] at hf)

/-! ## Lemmas on the configuration file -/

theorem docHasKey_cons_entry (k0 v0 fmt0 : String) (t : List YamlLine)
    (k : String) :
    docHasKey ⟨.entry k0 v0 fmt0 :: t⟩ k =
      (decide (k0 = k) || docHasKey ⟨t⟩ k) := by
  simp [docHasKey]

theorem docHasKey_cons_comment (s : String) (t : List YamlLine)
    (k : String) :
    docHasKey ⟨.comment s :: t⟩ k = docHasKey ⟨t⟩ k := by
  simp [docHasKey]

theorem pcFold_entry_const (lines : List YamlLine) (c : Config)
    (k v : String)
    (hall : ∀ v' fmt, YamlLine.entry k v' fmt ∈ lines → v' = v) :
    alookup (lines.foldl pcStep c) k =
      if docHasKey ⟨lines⟩ k then some v else alookup c k := by
  induction lines generalizing c with
  | nil => simp [docHasKey]
  | cons l t ih =>
    have htail : ∀ v' fmt, YamlLine.entry k v' fmt ∈ t → v' = v :=
      fun v' fmt hm => hall v' fmt (by simp [hm])
    cases l with
    | comment s =>
      rw [List.foldl_cons, docHasKey_cons_comment]
      exact ih c htail
    | entry k0 v0 fmt0 =>
      rw [List.foldl_cons, ih (pcStep c (.entry k0 v0 fmt0)) htail,
        docHasKey_cons_entry]
      by_cases hk : k0 = k
      · have hv0 : v0 = v := hall v0 fmt0 (by simp [hk])
        subst hk
        subst hv0
        cases ht : docHasKey ⟨t⟩ k0 <;>
          simp [ht, pcStep, alookup_aset_self]
      · cases ht : docHasKey ⟨t⟩ k <;>
          simp [ht, hk, pcStep,
            alookup_aset_ne _ _ (fun he => hk he.symm)]

theorem pcFold_map_lineUpdate (lines : List YamlLine) (c1 c2 : Config)
    (k v k' : String) (hk : k' ≠ k)
    (hc : alookup c1 k' = alookup c2 k') :
    alookup ((lines.map (lineUpdate k v)).foldl pcStep c1) k' =
      alookup (lines.foldl pcStep c2) k' := by
  induction lines generalizing c1 c2 with
  | nil => simpa using hc
  | cons l t ih =>
    cases l with
    | comment s => simpa [lineUpdate, pcStep] using ih c1 c2 hc
    | entry k0 v0 fmt0 =>
      rw [List.map_cons, List.foldl_cons, List.foldl_cons]
      by_cases h0 : k0 = k
      · subst h0
        have hl : lineUpdate k0 v (.entry k0 v0 fmt0) =
            .entry k0 v fmt0 := by simp [lineUpdate]
        rw [hl]
        refine ih _ _ ?_
        show alookup (aset c1 k0 v) k' = alookup (aset c2 k0 v0) k'
        rw [alookup_aset_ne _ _ hk, alookup_aset_ne _ _ hk]
        exact hc
      · have hl : lineUpdate k v (.entry k0 v0 fmt0) =
            .entry k0 v0 fmt0 := by simp [lineUpdate, h0]
        rw [hl]
        refine ih _ _ ?_
        show alookup (aset c1 k0 v0) k' = alookup (aset c2 k0 v0) k'
        by_cases he : k0 = k'
        · subst he
          rw [alookup_aset_self, alookup_aset_self]
        · rw [alookup_aset_ne _ _ (fun hx => he hx.symm),
            alookup_aset_ne _ _ (fun hx => he hx.symm)]
          exact hc

theorem entry_mem_map_lineUpdate (lines : List YamlLine) (k v : String) :
    ∀ v' fmt, YamlLine.entry k v' fmt ∈ lines.map (lineUpdate k v) →
      v' = v := by
  intro v' fmt hmem
  rcases List.mem_map.mp hmem with ⟨l, _, heq⟩
  cases l with
  | comment s => simp [lineUpdate] at heq
  | entry k0 v0 fmt0 =>
    by_cases h0 : k0 = k
    · simp only [lineUpdate, if_pos h0] at heq
      cases heq
      rfl
    · simp only [lineUpdate, if_neg h0] at heq
      cases heq
      exact absurd rfl h0

theorem docHasKey_map_lineUpdate (lines : List YamlLine) (k v k' : String) :
    docHasKey ⟨lines.map (lineUpdate k v)⟩ k' = docHasKey ⟨lines⟩ k' := by
  induction lines with
  | nil => rfl
  | cons l t ih =>
    cases l with
    | comment s => simpa [docHasKey, lineUpdate] using ih
    | entry k0 v0 fmt0 =>
      simp only [docHasKey, List.map_cons, List.any_cons] at ih ⊢
      rw [ih]
      by_cases h0 : k0 = k <;> simp [lineUpdate, h0]

theorem parseConfig_docSet_self (doc : YamlDoc) (k v : String) :
    alookup (parseConfig (docSet doc k v)) k = some v := by
  unfold docSet
  by_cases h : docHasKey doc k
  · rw [if_pos h]
    unfold parseConfig
    rw [pcFold_entry_const _ _ _ _ (entry_mem_map_lineUpdate doc.lines k v)]
    rw [docHasKey_map_lineUpdate]
    rw [if_pos (show docHasKey ⟨doc.lines⟩ k = true from h)]
  · rw [if_neg h]
    unfold parseConfig
    simp only [List.foldl_append, List.foldl_cons, List.foldl_nil, pcStep]
    exact alookup_aset_self _ _ _

theorem parseConfig_docSet_other (doc : YamlDoc) (k v k' : String)
    (h : k' ≠ k) :
    alookup (parseConfig (docSet doc k v)) k' =
      alookup (parseConfig doc) k' := by
  unfold docSet
  by_cases hk : docHasKey doc k
  · rw [if_pos hk]
    unfold parseConfig
    exact pcFold_map_lineUpdate doc.lines [] [] k v k' h rfl
  · rw [if_neg hk]
    unfold parseConfig
    simp only [List.foldl_append, List.foldl_cons, List.foldl_nil, pcStep]
    exact alookup_aset_ne _ _ h

theorem updateFold_not_mem (ks : List String) (doc : YamlDoc) (u : Config)
    (k : String) (hk : ¬ k ∈ ks) :
    alookup (parseConfig (ks.foldl (ucfStep u) doc)) k =
      alookup (parseConfig doc) k := by
  induction ks generalizing doc with
  | nil => rfl
  | cons k0 t ih =>
    simp only [List.mem_cons, not_or] at hk
    rw [List.foldl_cons]
    rw [ih _ hk.2]
    unfold ucfStep
    cases hu : alookup u k0 with
    | none => rfl
    | some v => exact parseConfig_docSet_other doc k0 v k hk.1

theorem updateFold_get (ks : List String) (doc : YamlDoc) (u : Config)
    (k v : String) (hmem : k ∈ ks) (hnd : ks.Nodup)
    (hv : alookup u k = some v) :
    alookup (parseConfig (ks.foldl (ucfStep u) doc)) k = some v := by
  induction ks generalizing doc with
  | nil => simp at hmem
  | cons k0 t ih =>
    rw [List.foldl_cons]
    by_cases he : k = k0
    · subst he
      have hnotin : ¬ k ∈ t := (List.nodup_cons.mp hnd).1
      rw [updateFold_not_mem t _ u k hnotin]
      unfold ucfStep
      rw [hv]
      exact parseConfig_docSet_self doc k v
    · have hmem' : k ∈ t := by
        rcases List.mem_cons.mp hmem with h | h
        · exact absurd h he
        · exact h
      exact ih _ hmem' (List.nodup_cons.mp hnd).2

/-- Claim C6: the write-back touches exactly the required keys present in
`updates`: every comment line, every entry for any other key, and the
formatting payload (quoting, inline comments) of *every* entry survive
byte-for-byte; updated entries keep their key, position and formatting and
change only their value. -/
theorem claim_c6 (doc : YamlDoc) (updates : Config)
    (h : ∀ k ∈ REQUIRED_FIELDS, (alookup updates k).isSome →
      docHasKey doc k) :
    (update_config_file doc updates).lines =
      doc.lines.map (fun l =>
        match l with
        | YamlLine.comment t => YamlLine.comment t
        | YamlLine.entry k v fmt =>
          if k ∈ REQUIRED_FIELDS then
            match alookup updates k with
            | some v' => YamlLine.entry k v' fmt
            | none => YamlLine.entry k v fmt
          else YamlLine.entry k v fmt) := by
  have general : ∀ (ks : List String), ks.Nodup → ∀ (d : YamlDoc),
      (∀ k ∈ ks, (alookup updates k).isSome → docHasKey d k) →
      (ks.foldl (ucfStep updates) d).lines =
        d.lines.map (fun l =>
          match l with
          | YamlLine.comment t => YamlLine.comment t
          | YamlLine.entry k v fmt =>
            if k ∈ ks then
              match alookup updates k with
              | some v' => YamlLine.entry k v' fmt
              | none => YamlLine.entry k v fmt
            else YamlLine.entry k v fmt) := by
    intro ks
    induction ks with
    | nil =>
      intro _ d _
      simp only [List.foldl_nil]
      have : ∀ l ∈ d.lines,
          l = (match l with
            | YamlLine.comment t => YamlLine.comment t
            | YamlLine.entry k v fmt =>
              if k ∈ ([] : List String) then
                match alookup updates k with
                | some v' => YamlLine.entry k v' fmt
                | none => YamlLine.entry k v fmt
              else YamlLine.entry k v fmt) := by
        intro l _
        cases l <;> simp
      conv_lhs => rw [← List.map_id d.lines]
      exact List.map_congr_left (fun l hl => this l hl)
    | cons k0 t ih =>
      intro hnd d hd
      obtain ⟨hk0t, hndt⟩ := List.nodup_cons.mp hnd
      rw [List.foldl_cons]
      cases hu : alookup updates k0 with
      | none =>
        have hstep : ucfStep updates d k0 = d := by unfold ucfStep; rw [hu]
        rw [hstep, ih hndt d (fun k hk hs => hd k (by simp [hk]) hs)]
        refine List.map_congr_left ?_
        intro l _
        cases l with
        | comment s => rfl
        | entry k v fmt =>
          by_cases he : k = k0
          · subst he
            simp [hk0t, hu]
          · simp only [List.mem_cons]
            by_cases ht : k ∈ t <;> simp [ht, he]
      | some v =>
        have hpres : docHasKey d k0 := hd k0 (by simp) (by simp [hu])
        have hstep : ucfStep updates d k0 =
            ⟨d.lines.map (lineUpdate k0 v)⟩ := by
          unfold ucfStep
          rw [hu]
          unfold docSet
          simp [hpres]
        rw [hstep, ih hndt _ (fun k hk hs => by
          rw [docHasKey_map_lineUpdate]
          exact hd k (by simp [hk]) hs)]
        simp only [List.map_map]
        refine List.map_congr_left ?_
        intro l _
        cases l with
        | comment s => rfl
        | entry k w fmt =>
          by_cases he : k = k0
          · subst he
            simp [Function.comp, lineUpdate, hk0t, hu]
          · simp only [Function.comp, lineUpdate, if_neg he,
              List.mem_cons]
            by_cases ht : k ∈ t <;> simp [ht, he]
  exact general REQUIRED_FIELDS (by decide) doc h

/-- Claim C6 witness: updating only `SessionID` on a file with a comment
and an extra operator key rewrites just that one line. -/
theorem claim_c6_witness :
    (update_config_file cDoc [("SessionID", "NEW")]).lines =
      [.entry "CompanyID" "C" " # quoted", .comment "# operator note",
       .entry "Manager" "M" "", .entry "Passcode" "P" "",
       .entry "SessionID" "NEW" "", .entry "SessionPassword" "oldp" "",
       .entry "UserName" "U" "", .entry "Extra" "E" ""] := by
  rw [claim_c6 cDoc [("SessionID", "NEW")] (by decide)]
  decide

/-- Claim C8: `load_config` fails with `MissingData` exactly when one of the
six required keys is absent from the parsed file, and succeeds returning
the parsed configuration unchanged when all six are present. -/
theorem claim_c8 (doc : YamlDoc) :
    (load_config doc = .error .missingData ↔
      ∃ k ∈ REQUIRED_FIELDS, alookup (parseConfig doc) k = none) ∧
    ((∀ k ∈ REQUIRED_FIELDS, (alookup (parseConfig doc) k).isSome) →
      load_config doc = .ok (parseConfig doc)) := by
  by_cases h : REQUIRED_FIELDS.all
      (fun k => (alookup (parseConfig doc) k).isSome) = true
  · have hok : load_config doc = .ok (parseConfig doc) := by
      unfold load_config
      rw [if_pos h]
    refine ⟨⟨fun he => ?_, fun hex => ?_⟩, fun _ => hok⟩
    · rw [hok] at he
      exact Except.noConfusion he
    · obtain ⟨k, hk, hnone⟩ := hex
      have := List.all_eq_true.mp h k hk
      rw [hnone] at this
      simp at this
  · have herr : load_config doc = .error .missingData := by
      unfold load_config
      rw [if_neg h]
    refine ⟨⟨fun _ => ?_, fun _ => herr⟩, fun hall => ?_⟩
    · by_contra hno
      push_neg at hno
      refine h (List.all_eq_true.mpr ?_)
      intro k hk
      exact Option.ne_none_iff_isSome.mp (hno k hk)
    · refine absurd (List.all_eq_true.mpr ?_) h
      intro k hk
      exact hall k hk

/-- Claim C8 witness: `cDoc` loads and returns its parsed content; removing
the `SessionID` line makes loading fail with `MissingData`. -/
theorem claim_c8_witness :
    load_config cDoc = .ok (parseConfig cDoc) ∧
    load_config cDocMissing = .error .missingData := by
  constructor
  · exact (claim_c8 cDoc).2 (by decide)
  · exact ((claim_c8 cDocMissing).1).mpr ⟨"SessionID", by decide, by decide⟩

/-- Claim C7: when the `StartAPISession` response carries a
`SessionInformation` object, `get_or_refresh_session` returns the
configuration with the fresh credentials merged in and persists them to the
file; when the response lacks the key, it fails with `UpstreamError` and
leaves the file untouched. -/
theorem claim_c7 (remote : Remote) (doc : YamlDoc) (cfg : Config)
    (dta : RespData) (sid sp : String)
    (hload : load_config doc = .ok cfg)
    (hr : remote (buildSessionParams cfg) = .ok dta) :
    (dta.sessionInformation =
        some [("SessionID", sid), ("SessionPassword", sp)] →
      ∃ cfg' doc',
        get_or_refresh_session remote doc = (.ok cfg', doc', 1) ∧
        alookup cfg' "SessionID" = some sid ∧
        alookup cfg' "SessionPassword" = some sp ∧
        alookup (parseConfig doc') "SessionID" = some sid ∧
        alookup (parseConfig doc') "SessionPassword" = some sp) ∧
    (dta.sessionInformation = none →
      get_or_refresh_session remote doc =
        (.error .upstreamError, doc, 1)) := by
  constructor
  · intro hsi
    have hcfg1 : alookup (aset (aset cfg "SessionID" sid)
        "SessionPassword" sp) "SessionID" = some sid := by
      rw [alookup_aset_ne _ _ (by decide)]
      exact alookup_aset_self _ _ _
    have hcfg2 : alookup (aset (aset cfg "SessionID" sid)
        "SessionPassword" sp) "SessionPassword" = some sp :=
      alookup_aset_self _ _ _
    have hfetch : fetch_new_session remote cfg =
        (.ok [("SessionID", sid), ("SessionPassword", sp)], 1) := by
      simp only [fetch_new_session, hr, hsi]
    refine ⟨aset (aset cfg "SessionID" sid) "SessionPassword" sp,
      update_config_file doc
        (aset (aset cfg "SessionID" sid) "SessionPassword" sp),
      ?_, hcfg1, hcfg2, ?_, ?_⟩
    · simp only [get_or_refresh_session, hload, hfetch, List.foldl_cons,
        List.foldl_nil]
    · exact updateFold_get REQUIRED_FIELDS doc _ "SessionID" sid
        (by decide) (by decide) hcfg1
    · exact updateFold_get REQUIRED_FIELDS doc _ "SessionPassword" sp
        (by decide) (by decide) hcfg2
  · intro hsi
    have hfetch : fetch_new_session remote cfg =
        (.error .upstreamError, 1) := by
      simp only [fetch_new_session, hr, hsi]
    simp only [get_or_refresh_session, hload, hfetch]

/-- Claim C7 witness: a fresh-session response `S1`/`P1` is merged and
persisted. -/
theorem claim_c7_witness :
    ∃ cfg' doc',
      get_or_refresh_session cRemoteFreshSession cDoc =
        (.ok cfg', doc', 1) ∧
      alookup cfg' "SessionID" = some "S1" ∧
      alookup cfg' "SessionPassword" = some "P1" ∧
      alookup (parseConfig doc') "SessionID" = some "S1" ∧
      alookup (parseConfig doc') "SessionPassword" = some "P1" :=
  (claim_c7 cRemoteFreshSession cDoc cCfg
    ⟨none, some [("SessionID", "S1"), ("SessionPassword", "P1")]⟩
    "S1" "P1" (by decide) rfl).1 rfl

/-! ## Claim C1: the retry bound of the gateway -/

theorem gors_calls_le (remote : Remote) (doc : YamlDoc) :
    (get_or_refresh_session remote doc).2.2 ≤ 1 := by
  unfold get_or_refresh_session fetch_new_session
  cases hl : load_config doc with
  | error e => simp
  | ok config =>
    cases hr : remote (buildSessionParams config) with
    | fail => simp [hr]
    | ok data =>
      cases hsi : data.sessionInformation <;> simp [hr, hsi]

theorem makeApiCallGo_calls_le (remote : Remote) (m s e : String) :
    ∀ (b : Nat) (doc : YamlDoc),
      (makeApiCallGo remote m s e b doc).2.2 ≤ 2 * b + 1 := by
  intro b
  induction b with
  | zero =>
    intro doc
    unfold makeApiCallGo
    cases hl : load_config doc with
    | error e0 => simp
    | ok config =>
      cases hr : remote (buildApiParams config m s e) with
      | fail => simp [hr]
      | ok data =>
        by_cases hec : data.errorCode = some "1" <;> simp [hr, hec]
  | succ b ih =>
    intro doc
    unfold makeApiCallGo
    cases hl : load_config doc with
    | error e0 => simp
    | ok config =>
      cases hr : remote (buildApiParams config m s e) with
      | fail => simp [hr]
      | ok data =>
        simp only [hr]
        by_cases hec : data.errorCode = some "1"
        · rw [if_pos hec]
          rcases hg : get_or_refresh_session remote doc with ⟨res, doc1, n⟩
          have hn : n ≤ 1 := by
            have h0 := gors_calls_le remote doc
            rw [hg] at h0
            simpa using h0
          cases res with
          | error e1 =>
            simp [hg]
            omega
          | ok c1 =>
            rcases hrec : makeApiCallGo remote m s e b doc1 with ⟨r2, d2, n2⟩
            have hn2 : n2 ≤ 2 * b + 1 := by
              have h0 := ih doc1
              rw [hrec] at h0
              simpa using h0
            simp [hg, hrec]
            omega
        · rw [if_neg hec]
          simp

/-- Claim C1 counterexample: a remote that *always* answers
`ErrorCode == "1"` and whose responses carry a `SessionInformation` object
(so every refresh succeeds) drives 5 HTTP requests — 3 attempts of the
method plus 2 `StartAPISession` refreshes — not at most 2: the guard
`attempt <= 2` retries from attempts 1 *and* 2. -/
theorem claim_c1_counterexample :
    (make_api_call cRemoteErrWithSession "getDispatchInfo" "2021-01-01"
      "2021-01-31" cDoc 1).2.2 = 5 ∧
    ¬ ((make_api_call cRemoteErrWithSession "getDispatchInfo" "2021-01-01"
      "2021-01-31" cDoc 1).2.2 ≤ 2) := by decide

/-- Claim C1 as amended: the recursion is always bounded — a call entered at
attempt `a` issues at most `2 * (3 - a) + 1` HTTP requests (so at most 5
from the script's `attempt = 1`, allowing 3 attempts of the method); and
when every response carries `ErrorCode == "1"` *without*
`SessionInformation`, exactly 2 HTTP requests happen before the missing-key
`ValueError` (`UpstreamError`) surfaces, the file left untouched. -/
theorem claim_c1_amended :
    (∀ (remote : Remote) (m s e : String) (doc : YamlDoc) (attempt : Nat),
      (make_api_call remote m s e doc attempt).2.2 ≤
        2 * (3 - attempt) + 1) ∧
    (∀ (remote : Remote) (m s e : String) (doc : YamlDoc) (cfg : Config),
      load_config doc = .ok cfg →
      (∀ p, ∃ dta, remote p = .ok dta ∧ dta.errorCode = some "1" ∧
        dta.sessionInformation = none) →
      make_api_call remote m s e doc 1 =
        (.error .upstreamError, doc, 2)) := by
  constructor
  · intro remote m s e doc attempt
    exact makeApiCallGo_calls_le remote m s e (3 - attempt) doc
  · intro remote m s e doc cfg hload hrem
    obtain ⟨dta, hr, hec, _⟩ := hrem (buildApiParams cfg m s e)
    obtain ⟨dta2, hr2, _, hsi2⟩ := hrem (buildSessionParams cfg)
    have hfetch : fetch_new_session remote cfg =
        (.error .upstreamError, 1) := by
      simp only [fetch_new_session, hr2, hsi2]
    have hgors : get_or_refresh_session remote doc =
        (.error .upstreamError, doc, 1) := by
      simp only [get_or_refresh_session, hload, hfetch]
    show makeApiCallGo remote m s e 2 doc = _
    unfold makeApiCallGo
    simp only [hload, hr]
    rw [if_pos hec]
    simp only [hgors]

/-- Claim C1 witness (amended form): with a no-`SessionInformation`
always-error remote, exactly 2 HTTP requests and an `UpstreamError`; the
general bound instantiated at the session-carrying remote. -/
theorem claim_c1_witness :
    make_api_call cRemoteErrNoSession "getDispatchInfo" "2021-01-01"
        "2021-01-31" cDoc 1 = (.error .upstreamError, cDoc, 2) ∧
    (make_api_call cRemoteErrWithSession "getDispatchInfo" "2021-01-01"
        "2021-01-31" cDoc 1).2.2 ≤ 2 * (3 - 1) + 1 := by
  constructor
  · exact claim_c1_amended.2 cRemoteErrNoSession _ _ _ cDoc cCfg (by decide)
      (fun p => ⟨⟨some "1", none⟩, rfl, rfl, rfl⟩)
  · exact claim_c1_amended.1 cRemoteErrWithSession _ _ _ cDoc 1

/-! ## Claim C10: the doubled session password -/

theorem alookup_reqParamsList (ks : List String) (config : Config)
    (k v : String) (hk : k ∈ ks) (hv : alookup config k = some v) :
    alookup (ks.filterMap
      (fun x => (alookup config x).map (fun w => (x, w)))) k = some v := by
  induction ks with
  | nil => simp at hk
  | cons k0 t ih =>
    rcases List.mem_cons.mp hk with he | ht
    · subst he
      simp [List.filterMap_cons, hv, alookup]
    · cases hc : alookup config k0 with
      | none =>
        simp only [List.filterMap_cons, hc]
        exact ih ht
      | some w =>
        by_cases he : k0 = k
        · subst he
          rw [hc] at hv
          simp [List.filterMap_cons, hc, alookup, hv]
        · simp [List.filterMap_cons, hc, alookup, he, ih ht]

/-- Claim C10: when the configuration holds both session keys, the query
parameters of `make_api_call` carry the session password twice — once under
`SessionPassword` (copied with the required fields) and once under `SP`
(added afterwards) — with the same value. -/
theorem claim_c10 (config : Config) (sid sp m s e : String)
    (h1 : alookup config "SessionID" = some sid)
    (h2 : alookup config "SessionPassword" = some sp) :
    alookup (buildApiParams config m s e) "SessionPassword" = some sp ∧
    alookup (buildApiParams config m s e) "SP" = some sp := by
  have hbase : alookup (reqParams config) "SessionPassword" = some sp := by
    unfold reqParams
    exact alookup_reqParamsList REQUIRED_FIELDS config _ _ (by decide) h2
  have hform : buildApiParams config m s e =
      aset (aset (aset (aset (aset (reqParams config) "Method" m)
        "StartTime" s) "EndTime" e) "SessionID" sid) "SP" sp := by
    unfold buildApiParams
    rw [h1, h2]
  rw [hform]
  constructor
  · rw [alookup_aset_ne _ _ (by decide), alookup_aset_ne _ _ (by decide),
      alookup_aset_ne _ _ (by decide), alookup_aset_ne _ _ (by decide),
      alookup_aset_ne _ _ (by decide)]
    exact hbase
  · exact alookup_aset_self _ _ _

/-- Claim C10 witness at the concrete configuration `cCfg`. -/
theorem claim_c10_witness :
    alookup (buildApiParams cCfg "getDispatchInfo" "a" "b")
      "SessionPassword" = some "oldp" ∧
    alookup (buildApiParams cCfg "getDispatchInfo" "a" "b") "SP" =
      some "oldp" :=
  claim_c10 cCfg "old" "oldp" "getDispatchInfo" "a" "b" (by decide)
    (by decide)

end DtApi
